import Mathlib

/-!
Verification development for the tabular data engine of the
Visual-data-analysis repository (src/utils/dataProcessing.ts).

Modelling conventions (shallow embedding of the TypeScript source):
* JavaScript numbers are modelled as exact rationals; the claims under
  study only involve values for which IEEE-754 arithmetic is exact.
  JavaScript NaN never needs to be stored in a dataset cell for the
  claims at hand: every code path covered converts a NaN to 0 before
  storing it, so NaN appears in the model only as the `none` case of
  `Option` valued coercions and as the `nanRes` formula outcome.
* A JS row object `{ id: ..., k1: v1, ... }` is modelled as an `id`
  value plus an insertion-ordered association list of cells; `id` is
  stored separately from the other keys, mirroring the way every row
  constructor in the source writes the `id` property first.
* Host intrinsics that cannot be given an exact executable semantics
  (Date.parse, Math.sqrt, Math.log on irrational inputs, and the
  `new Function` formula compiler) are collected in a `JsIntrinsics`
  record; every operation takes such a record as an explicit argument
  and each theorem quantifies over it, adding only the hypotheses
  about the intrinsics that the source relies on (e.g. sqrt 0 = 0).
* `crypto.randomUUID()` identities, `Date.now()` timestamps and the
  optional `rawContent` / `hierarchy` fields play no role in any claim
  and are omitted from the `Dataset` record.
-/

namespace VDA

/-- A JavaScript scalar as it occurs in a dataset cell: number, string,
boolean, null, or undefined (the result of reading an absent key). -/
inductive Value where
  | num (q : ℚ)
  | str (s : String)
  | boolV (b : Bool)
  | nullV
  | undefV
deriving DecidableEq, Repr

/-- JS `String(v)` conversion.  Integral numbers print like JS
(`String(1) = "1"`, `String(-3) = "-3"`); non-integral rationals are
given a placeholder rendering (numerator/denominator) since no claim
stringifies a non-integral number. -/
def jsString : Value → String
  | .num q => if q.den = 1 then toString q.num else toString q.num ++ "/" ++ toString q.den
  | .str s => s
  | .boolV b => cond b "true" "false"
  | .nullV => "null"
  | .undefV => "undefined"

/-- JS truthiness (`if (v)`): 0, "", false, null, undefined are falsy. -/
def jsTruthy : Value → Bool
  | .num q => q ≠ 0
  | .str s => s ≠ ""
  | .boolV b => b
  | .nullV => false
  | .undefV => false

/-- Value of a digit list read in base 10 (most significant first). -/
def digitsVal (cs : List Char) : ℕ :=
  cs.foldl (fun a c => 10 * a + (c.toNat - 48)) 0

/-- Parse an unsigned decimal `digits[.digits]` (or `.digits`) prefix of a
character list; returns the value and the unconsumed remainder.  Exponent
and hexadecimal notations are not modelled (no claim uses them). -/
def parseUnsignedDec (cs : List Char) : Option (ℚ × List Char) :=
  let p := cs.span (·.isDigit)
  match p.2 with
  | '.' :: rest2 =>
      let pf := rest2.span (·.isDigit)
      if p.1.isEmpty && pf.1.isEmpty then none
      else some ((digitsVal p.1 : ℚ) + (digitsVal pf.1 : ℚ) / ((10 : ℚ) ^ pf.1.length), pf.2)
  | _ => if p.1.isEmpty then none else some ((digitsVal p.1 : ℚ), p.2)

/-- Parse an optional sign followed by an unsigned decimal. -/
def parseSignedDec (cs : List Char) : Option (ℚ × List Char) :=
  match cs with
  | '-' :: rest => (parseUnsignedDec rest).map (fun r => (-r.1, r.2))
  | '+' :: rest => parseUnsignedDec rest
  | _ => parseUnsignedDec cs

/-- JS `parseFloat(v)` after the implicit ToString coercion: leading
whitespace is skipped, a decimal prefix is read, trailing characters are
ignored; `none` models a NaN outcome. -/
def jsParseFloat : Value → Option ℚ
  | .num q => some q
  | .str s => (parseSignedDec (s.data.dropWhile (·.isWhitespace))).map Prod.fst
  | _ => none

/-- JS `Number(v)` coercion: `none` models a NaN outcome.  Strings must
consist entirely of one decimal literal (after trimming); the empty or
all-whitespace string converts to 0. -/
def jsToNumber : Value → Option ℚ
  | .num q => some q
  | .nullV => some 0
  | .boolV b => some (cond b 1 0)
  | .undefV => none
  | .str s =>
      let cs := (s.data.dropWhile (·.isWhitespace)).reverse.dropWhile (·.isWhitespace) |>.reverse
      if cs.isEmpty then some 0
      else match parseSignedDec cs with
        | some (q, []) => some q
        | _ => none

/-- Does `nd` occur as a contiguous sublist of the character list? -/
def charsInclude (nd : List Char) : List Char → Bool
  | [] => nd.isEmpty
  | h :: t => if nd.isPrefixOf (h :: t) then true else charsInclude nd t

/-- JS `hay.includes(needle)` (substring containment). -/
def strIncludes (hay needle : String) : Bool :=
  charsInclude needle.data hay.data

/-- JS `s.split(delim)`.  A `none` delimiter models `split(undefined)`
(whole string); the empty-string delimiter splits into characters. -/
def jsSplit (s : String) : Option String → List String
  | none => [s]
  | some "" => s.data.map (fun c => String.mk [c])
  | some d => s.splitOn d

/-- A row object: the `id` property (always written first by every row
constructor in the source) plus the remaining properties as an
insertion-ordered association list.  Mirrors `DataRow` of `types.ts`. -/
structure DataRow where
  id : Value
  cells : List (String × Value)
deriving DecidableEq, Repr

/-- JS property read `r[k]`: the `id` property, or the first cell with
that key, or `undefined`. -/
def getCell (r : DataRow) (k : String) : Value :=
  if k = "id" then r.id
  else match r.cells.find? (fun p => p.1 == k) with
    | some p => p.2
    | none => .undefV

/-- JS property write on an object's cell list (`obj[k] = v` or the
spread-then-assign pattern `{...r, [k]: v}`): replaces the value at the
first occurrence of the key, keeping its position, else appends. -/
def setCell : List (String × Value) → String → Value → List (String × Value)
  | [], k, v => [(k, v)]
  | (k', v') :: rest, k, v =>
      if k' = k then (k', v) :: rest else (k', v') :: setCell rest k v

/-- `Object.keys(r)` minus the `id` property. -/
def rowKeys (r : DataRow) : List String := r.cells.map Prod.fst

/-- Inferred column type, as in `ColumnMetadata['type']` of `types.ts`. -/
inductive CType where
  | number | date | strT | boolean | unknown
deriving DecidableEq, Repr

/-- Per-column metadata produced by the analyzer (fields not written by
`analyzeColumns` are omitted). -/
structure ColumnMetadata where
  name : String
  originalName : String
  type : CType
  missingCount : ℕ
  uniqueCount : ℕ
  min : Option ℚ
  max : Option ℚ
  mean : Option ℚ
  isActive : Bool
  importanceScore : ℚ
  categories : Option (List String)
deriving DecidableEq, Repr

/-- `DatasetStats` of `types.ts`. -/
structure DatasetStats where
  originalRows : ℕ
  totalCells : ℕ
  imputedCells : ℕ
  droppedRows : ℕ
deriving DecidableEq, Repr

/-- `Dataset` of `types.ts`, without the host-generated identity fields
(uuid, timestamp) and the optional fields no claim touches. -/
structure Dataset where
  name : String
  rows : List DataRow
  columns : List ColumnMetadata
  stats : DatasetStats
deriving DecidableEq, Repr

/-- The `TransformationType` union of `types.ts` (the transformation
switch in the source implements only the first five). -/
inductive TransformKind where
  | split_count | split_extract | to_uppercase | math_log | math_add
  | extract_regex | to_lowercase | nlp_sentiment | group_count
deriving DecidableEq, Repr

/-- The `params` bag of a `TransformationConfig`; absent entries are
`none` (JS `undefined`). -/
structure TransformParams where
  delimiter : Option String := none
  index : Option ℤ := none
  value : Option ℚ := none
  regex : Option String := none
deriving DecidableEq, Repr

/-- `TransformationConfig` of `types.ts`. -/
structure TransformationConfig where
  type : TransformKind
  targetCol : String
  params : TransformParams
deriving DecidableEq, Repr

/-- Outcome of invoking a compiled formula on a row's argument vector:
a JS value, a NaN result, or a thrown exception. -/
inductive FormulaOutcome where
  | res (v : Value)
  | nanRes
  | thrown
deriving DecidableEq, Repr

/-- Host intrinsics the source calls but whose exact semantics live
outside the engine: `Date.parse` validity, `Math.sqrt`, `Math.log`
(taking the possibly-NaN result of a `Number(...)` coercion), and the
`new Function(...args, "return formula;")` compiler, which either fails
(`none`) or yields a function from the coerced argument vector to an
outcome.  Theorems quantify over this record. -/
structure JsIntrinsics where
  dateParses : String → Bool
  sqrt : ℚ → ℚ
  log : Option ℚ → Value
  compileFormula : String → List String → Option (List ℚ → FormulaOutcome)

/-- A trivial intrinsics instance used to state closed counterexamples
and witnesses. -/
def defaultEnv : JsIntrinsics where
  dateParses := fun _ => false
  sqrt := fun _ => 0
  log := fun _ => .num 0
  compileFormula := fun _ _ => none

/-- The missing-value test of the analyzer: `v !== null && v !== undefined
&& v !== ''` is false exactly on these values. -/
def isMissing (v : Value) : Bool :=
  v == .nullV || v == .undefV || v == .str ""

/-- The strict `typeof v === 'number'` check. -/
def isNumValue : Value → Bool
  | .num _ => true
  | _ => false

/-- `analyzeColumns` (dataProcessing.ts lines 139-177): the schema comes
from the first row's keys only; a column is numeric iff every
non-missing value is a number, else a date iff every non-missing value
parses as a date; numeric min/max/mean are over non-missing values;
uniqueCount counts distinct stringified values (missing included). -/
def analyzeColumns (env : JsIntrinsics) (rows : List DataRow) : List ColumnMetadata :=
  match rows with
  | [] => []
  | r0 :: _ =>
    let keys := (rowKeys r0).filter (fun k => k ≠ "id")
    keys.map (fun key =>
      let values := rows.map (fun r => getCell r key)
      let nonNull := values.filter (fun v => !(isMissing v))
      let isNumber := !nonNull.isEmpty && nonNull.all isNumValue
      let isDate := !isNumber && !nonNull.isEmpty &&
        nonNull.all (fun v => env.dateParses (jsString v))
      let type : CType := if isNumber then .number else if isDate then .date else .strT
      let numbers := nonNull.filterMap (fun v => match v with | .num q => some q | _ => none)
      let minV : Option ℚ := if type = CType.number ∧ nonNull ≠ [] then
          (match numbers with | [] => none | x :: xs => some (xs.foldl min x)) else none
      let maxV : Option ℚ := if type = CType.number ∧ nonNull ≠ [] then
          (match numbers with | [] => none | x :: xs => some (xs.foldl max x)) else none
      let meanV : Option ℚ := if type = CType.number ∧ nonNull ≠ [] then
          some (numbers.foldl (· + ·) 0 / (numbers.length : ℚ)) else none
      let unique := ((values.map jsString).dedup).length
      let importance : ℚ := if type = CType.number ∧ maxV ≠ minV then
          (unique : ℚ) / (rows.length : ℚ) else 0
      let categories := if unique < 20 then some (((values.map jsString).dedup).take 10) else none
      { name := key, originalName := key, type := type,
        missingCount := values.length - nonNull.length,
        uniqueCount := unique, min := minV, max := maxV, mean := meanV,
        isActive := true, importanceScore := importance, categories := categories })

/-- Header-candidate score in `processRawData`: the number of cells that
are non-empty strings (`c !== null && c !== '' && typeof c === 'string'`). -/
def headerScore (row : List Value) : ℕ :=
  (row.filter (fun c => match c with | .str s => decide (s ≠ "") | _ => false)).length

/-- `processRawData` (dataProcessing.ts lines 5-54): pick as header the
row among the first 20 maximizing `headerScore` (first maximum wins),
deduplicate header names by suffixing repeats, build rows positionally
from the remaining raw rows, analyze, and record the number of skipped
leading rows in `droppedRows`. -/
def processRawData (env : JsIntrinsics) (rawData : List (List Value)) (fileName : String) :
    Dataset :=
  match rawData with
  | [] =>
    { name := fileName
      rows := []
      columns := []
      stats := { originalRows := 0, totalCells := 0, imputedCells := 0, droppedRows := 0 } }
  | _ =>
    let scan := (rawData.take 20).enum.foldl (fun acc p =>
        let cnt := headerScore p.2
        if cnt > acc.1 then (cnt, p.1) else acc) (0, 0)
    let bestHeaderIndex := scan.2
    let headerRow := (rawData.getD bestHeaderIndex []).map jsString
    let uniqueHeaders := headerRow.enum.map (fun p =>
        let count := ((headerRow.take p.1).filter (fun x => x == p.2)).length
        if count = 0 then p.2 else p.2 ++ "_" ++ toString (count + 1))
    let rows := (rawData.drop (bestHeaderIndex + 1)).enum.map (fun p =>
        ({ id := Value.num p.1,
           cells := uniqueHeaders.enum.foldl (fun acc q =>
               setCell acc q.2 (p.2.getD q.1 .undefV)) [] } : DataRow))
    let columns := analyzeColumns env rows
    { name := fileName
      rows := rows
      columns := columns
      stats := { originalRows := rows.length
                 totalCells := rows.length * columns.length
                 imputedCells := 0
                 droppedRows := bestHeaderIndex } }

/-- `String(v || '')`: stringify, with every falsy value becoming the
empty string first. -/
def strOrEmpty (v : Value) : String :=
  jsString (if jsTruthy v then v else .str "")

/-- The derived column name of each case of the transformation switch
(dataProcessing.ts lines 201-243); the four `TransformationType`
variants the switch does not handle leave `newColName` as the empty
string. -/
def derivedName (config : TransformationConfig) : String :=
  match config.type with
  | .split_count => config.targetCol ++ "_Count"
  | .split_extract => config.targetCol ++ "_Part" ++
      (match config.params.index with | some i => toString i | none => "undefined")
  | .to_uppercase => config.targetCol ++ "_Upper"
  | .math_log => "Log_" ++ config.targetCol
  | .math_add => config.targetCol ++ "_Plus"
  | _ => ""

/-- `applyTransformation` (dataProcessing.ts lines 201-243).  Each
handled case maps every row to a copy carrying one derived cell; a
config whose type has no case leaves the rows untouched.  The stats
update hard-codes one added column: `rows * (columns + 1)` cells. -/
def applyTransformation (env : JsIntrinsics) (dataset : Dataset)
    (config : TransformationConfig) : Dataset :=
  let newRows :=
    match config.type with
    | .split_count =>
        dataset.rows.map (fun r =>
          { r with cells := (setCell r.cells (derivedName config)
              (.num ((jsSplit (strOrEmpty (getCell r config.targetCol))
                        config.params.delimiter).length))) })
    | .split_extract =>
        dataset.rows.map (fun r =>
          let parts := jsSplit (strOrEmpty (getCell r config.targetCol))
            config.params.delimiter
          let part := match config.params.index with
            | some i => if 0 ≤ i then parts.getD i.toNat "" else ""
            | none => ""
          { r with cells := (setCell r.cells (derivedName config) (.str part)) })
    | .to_uppercase =>
        dataset.rows.map (fun r =>
          { r with cells := (setCell r.cells (derivedName config)
              (.str (strOrEmpty (getCell r config.targetCol)).toUpper)) })
    | .math_log =>
        dataset.rows.map (fun r =>
          { r with cells := (setCell r.cells (derivedName config)
              (if jsTruthy (getCell r config.targetCol)
               then env.log (jsToNumber (getCell r config.targetCol))
               else .num 0)) })
    | .math_add =>
        dataset.rows.map (fun r =>
          { r with cells := (setCell r.cells (derivedName config)
              (.num ((jsToNumber (getCell r config.targetCol)).getD 0 +
                     config.params.value.getD 0))) })
    | _ => dataset.rows
  { dataset with
      rows := newRows
      columns := analyzeColumns env newRows
      stats := { dataset.stats with
                 totalCells := newRows.length * (dataset.columns.length + 1) } }

/-- Last-write-wins insert into a string-keyed map (JS `Map.set`). -/
def mapSet : List (String × DataRow) → String → DataRow → List (String × DataRow)
  | [], k, r => [(k, r)]
  | (k', r') :: rest, k, r =>
      if k' = k then (k', r) :: rest else (k', r') :: mapSet rest k r

/-- JS `Map.get`. -/
def mapGet (m : List (String × DataRow)) (k : String) : Option DataRow :=
  (m.find? (fun p => p.1 == k)).map Prod.snd

/-- `joinDatasets` (dataProcessing.ts lines 267-308): left-outer hash
join.  Secondary rows are indexed by stringified key (skipping rows
whose stringified key is the empty string); each primary row merges the
matched secondary row's non-id, non-key fields, prefixing a field with
the secondary dataset's name on a column-name collision.  No key
validation of any kind is performed. -/
def joinDatasets (env : JsIntrinsics) (primary secondary : Dataset)
    (primaryKey secondaryKey : String) : Dataset :=
  let secondaryIndex := secondary.rows.foldl (fun m row =>
      let key := jsString (getCell row secondaryKey)
      if key ≠ "" then mapSet m key row else m) []
  let combinedRows := primary.rows.map (fun pRow =>
      let pKey := jsString (getCell pRow primaryKey)
      match mapGet secondaryIndex pKey with
      | none => pRow
      | some sRow =>
          { pRow with cells :=
              (sRow.cells.foldl (fun acc kv =>
                if kv.1 ≠ "id" ∧ kv.1 ≠ secondaryKey then
                  let finalKey := if primary.columns.any (fun c => c.name == kv.1)
                    then secondary.name ++ "_" ++ kv.1 else kv.1
                  setCell acc finalKey kv.2
                else acc) pRow.cells) })
  { name := primary.name ++ " + " ++ secondary.name
    rows := combinedRows
    columns := analyzeColumns env combinedRows
    stats := { primary.stats with totalCells := (combinedRows.length *
      (match combinedRows with | [] => 0 | r :: _ => r.cells.length + 1)) } }

/-- `transposeDataset` (dataProcessing.ts lines 364-375): one new row per
original column, keyed `Attribute` (the column name) and `Row_i` (that
column's value in original row i). -/
def transposeDataset (env : JsIntrinsics) (dataset : Dataset) : Dataset :=
  let originalKeys := dataset.columns.map (fun c => c.name)
  let newRows := originalKeys.enum.map (fun p =>
    ({ id := .num p.1,
       cells := dataset.rows.enum.foldl (fun acc q =>
           setCell acc ("Row_" ++ toString q.1) (getCell q.2 p.2))
         [("Attribute", .str p.2)] } : DataRow))
  let newColumns := analyzeColumns env newRows
  { dataset with
      rows := newRows
      columns := newColumns
      stats := { dataset.stats with totalCells := newRows.length * newColumns.length } }

/-- The new header names `setHeaderRow` computes from the chosen row:
`Object.values(row)` (the id value first, then the cell values in
order) with every value strictly equal to the id value filtered out,
then stringified.  Note there is no deduplication. -/
def headerKeys (row : DataRow) : List String :=
  ((row.id :: row.cells.map Prod.snd).filter (fun v => v ≠ row.id)).map jsString

/-- The positional remapping loop of `setHeaderRow`: walk the old cell
values in order, assigning each to the next new key while new keys
remain (duplicate new keys overwrite, last assignment winning). -/
def buildNewCells : List String → List Value → List (String × Value) → List (String × Value)
  | _, [], acc => acc
  | [], _, acc => acc
  | k :: ks, v :: vs, acc => buildNewCells ks vs (setCell acc k v)

/-- `setHeaderRow` (dataProcessing.ts lines 377-391).  Out-of-range
indices return the dataset unchanged.  (The JS code would overwrite the
`id` property if one of the new header names were the literal string
"id"; the model keeps such a name as an ordinary cell instead - no
claim involves that corner.) -/
def setHeaderRow (env : JsIntrinsics) (dataset : Dataset) (rowIndex : ℤ) : Dataset :=
  if rowIndex < 0 ∨ (dataset.rows.length : ℤ) ≤ rowIndex then dataset
  else
    let idx := rowIndex.toNat
    let newKeys := match dataset.rows.get? idx with
      | some r => headerKeys r
      | none => []
    let newRows := (dataset.rows.drop (idx + 1)).enum.map (fun p =>
      ({ id := .num p.1, cells := buildNewCells newKeys (p.2.cells.map Prod.snd) [] } : DataRow))
    { dataset with
        rows := newRows
        columns := analyzeColumns env newRows
        stats := { dataset.stats with droppedRows := dataset.stats.droppedRows + (idx + 1) } }

/-- `Array.prototype.slice(s, e)` with JS index normalisation: a
negative index counts from the end, and both indices are clamped to the
array bounds; the slice never throws. -/
def jsSlice {α : Type} (l : List α) (s e : ℤ) : List α :=
  let n : ℤ := l.length
  let s' := if s < 0 then max (n + s) 0 else min s n
  let e' := if e < 0 then max (n + e) 0 else min e n
  (l.take e'.toNat).drop s'.toNat

/-- `cropDataset` (dataProcessing.ts lines 393-406): slice rows with JS
`slice(startRow, endRow + 1)`, optionally project onto a column subset,
re-index ids densely, and add the number of rows that fell outside the
slice to `droppedRows`. -/
def cropDataset (env : JsIntrinsics) (dataset : Dataset) (startRow endRow : ℤ)
    (columnsToKeep : Option (List String)) : Dataset :=
  let originalLen := dataset.rows.length
  let sliced := jsSlice dataset.rows startRow (endRow + 1)
  let droppedCount := originalLen - sliced.length
  let pruned := match columnsToKeep with
    | some cols =>
        if cols.length > 0 then
          sliced.map (fun (row : DataRow) =>
            ({ id := row.id,
               cells := cols.foldl (fun acc col =>
                 if col ≠ "id" ∧ (rowKeys row).contains col
                 then setCell acc col (getCell row col) else acc) [] } : DataRow))
        else sliced
    | none => sliced
  let newRows := pruned.enum.map (fun (p : ℕ × DataRow) => { p.2 with id := Value.num p.1 })
  { dataset with
      rows := newRows
      columns := analyzeColumns env newRows
      stats := { dataset.stats with droppedRows := dataset.stats.droppedRows + droppedCount } }

/-- The numeric vector the correlation engine reads off a column:
`Number(r[col]) || 0` for every row. -/
def numVec (dataset : Dataset) (col : String) : List ℚ :=
  dataset.rows.map (fun r => (jsToNumber (getCell r col)).getD 0)

/-- Pearson's r between two columns exactly as the source computes it:
sums, sums of squares and cross-products by reduction, then
`den === 0 ? 0 : num / den` with `den` the sqrt of the variance
product. -/
def pearson (env : JsIntrinsics) (dataset : Dataset) (c1 c2 : String) : ℚ :=
  let vals1 := numVec dataset c1
  let vals2 := numVec dataset c2
  let n : ℚ := vals1.length
  let sum1 := vals1.foldl (· + ·) 0
  let sum2 := vals2.foldl (· + ·) 0
  let sum1Sq := vals1.foldl (fun a b => a + b * b) 0
  let sum2Sq := vals2.foldl (fun a b => a + b * b) 0
  let pSum := (vals1.zip vals2).foldl (fun a b => a + b.1 * b.2) 0
  let num := pSum - sum1 * sum2 / n
  let den := env.sqrt ((sum1Sq - sum1 * sum1 / n) * (sum2Sq - sum2 * sum2 / n))
  if den = 0 then 0 else num / den

/-- The columns the correlation engine works over: active columns of
inferred numeric type, in order. -/
def activeNumericNames (dataset : Dataset) : List String :=
  (dataset.columns.filter (fun c => c.type == CType.number && c.isActive)).map (fun c => c.name)

/-- `calculateCorrelationMatrix` (dataProcessing.ts lines 419-443):
empty result below two active numeric columns, else the full pairwise
matrix with an index-based forced unit diagonal. -/
def calculateCorrelationMatrix (env : JsIntrinsics) (dataset : Dataset) :
    List String × List (List ℚ) :=
  let numericCols := activeNumericNames dataset
  if numericCols.length < 2 then ([], [])
  else
    let matrix := numericCols.enum.map (fun pi =>
      numericCols.enum.map (fun pj =>
        if pi.1 = pj.1 then 1 else pearson env dataset pi.2 pj.2))
    (numericCols, matrix)

/-- The referenced-column computation of `createCalculatedColumn`:
column names occurring as substrings of the formula text, in column
order. -/
def usedColumnNames (dataset : Dataset) (formula : String) : List String :=
  (dataset.columns.map (fun c => c.name)).filter (fun name => strIncludes formula name)

/-- The coerced argument vector for one row: `parseFloat` of each
referenced cell, NaN becoming 0. -/
def rowArgs (dataset : Dataset) (formula : String) (row : DataRow) : List ℚ :=
  (usedColumnNames dataset formula).map
    (fun colName => (jsParseFloat (getCell row colName)).getD 0)

/-- The stored cell for one formula outcome: a thrown exception or a
NaN result becomes 0, anything else is stored as produced
(`isNaN(result) ? 0 : result` under JS `isNaN`'s Number coercion). -/
def outcomeCell : FormulaOutcome → Value
  | .thrown => .num 0
  | .nanRes => .num 0
  | .res v => if (jsToNumber v).isNone then .num 0 else v

/-- The row list the compiled branch of `createCalculatedColumn`
produces: every row mapped to a copy with the new cell. -/
def calcRows (dataset : Dataset) (newColName formula : String)
    (func : List ℚ → FormulaOutcome) : List DataRow :=
  dataset.rows.map (fun (row : DataRow) =>
    { row with cells := (setCell row.cells newColName
        (outcomeCell (func (rowArgs dataset formula row)))) })

/-- `createCalculatedColumn` (dataProcessing.ts lines 445-462): compile
once (failing fast with the error the source throws), then map every
row to a copy with the new cell; stats are passed through untouched. -/
def createCalculatedColumn (env : JsIntrinsics) (dataset : Dataset)
    (newColName formula : String) : Except String Dataset :=
  match env.compileFormula formula (usedColumnNames dataset formula) with
  | none => .error "Invalid formula syntax"
  | some func =>
      .ok { dataset with
              rows := calcRows dataset newColName formula func
              columns := analyzeColumns env (calcRows dataset newColName formula func) }

/-! ### Association-list toolkit -/

theorem setCell_keys_of_mem (l : List (String × Value)) (k : String) (v : Value)
    (h : k ∈ l.map Prod.fst) : (setCell l k v).map Prod.fst = l.map Prod.fst := by
  induction l with
  | nil => simp at h
  | cons a rest ih =>
    by_cases hk : a.1 = k
    · cases a
      simp_all [setCell]
    · cases a with
      | mk k' v' =>
        simp only [List.map_cons] at h
        simp only [setCell, if_neg hk, List.map_cons]
        simp only [List.mem_cons] at h
        rcases h with h | h
        · exact absurd h.symm hk
        · rw [ih h]

theorem setCell_fresh (l : List (String × Value)) (k : String) (v : Value)
    (h : k ∉ l.map Prod.fst) : setCell l k v = l ++ [(k, v)] := by
  induction l with
  | nil => rfl
  | cons a rest ih =>
    cases a with
    | mk k' v' =>
      simp only [List.map_cons, List.mem_cons] at h
      push_neg at h
      have hne : ¬ (k' = k) := fun hh => h.1 hh.symm
      simp only [setCell, if_neg hne, List.cons_append]
      rw [ih h.2]

theorem setCell_keys_fresh (l : List (String × Value)) (k : String) (v : Value)
    (h : k ∉ l.map Prod.fst) : (setCell l k v).map Prod.fst = l.map Prod.fst ++ [k] := by
  rw [setCell_fresh l k v h]; simp

theorem find?_setCell_self (l : List (String × Value)) (k : String) (v : Value) :
    (setCell l k v).find? (fun p => p.1 == k) = some (k, v) := by
  induction l with
  | nil => simp [setCell, List.find?]
  | cons a rest ih =>
    cases a with
    | mk k' v' =>
      by_cases hk : k' = k
      · subst hk; simp [setCell, List.find?]
      · simp only [setCell, if_neg hk]
        rw [List.find?_cons_of_neg]
        · exact ih
        · simp [hk]

theorem find?_setCell_ne (l : List (String × Value)) (k k' : String) (v : Value)
    (h : k' ≠ k) :
    (setCell l k v).find? (fun p => p.1 == k') = l.find? (fun p => p.1 == k') := by
  induction l with
  | nil =>
    have hne : (k == k') = false := by simp [Ne.symm h]
    simp [setCell, List.find?, hne]
  | cons a rest ih =>
    cases a with
    | mk ka va =>
      by_cases hk : ka = k
      · subst hk
        simp only [setCell, eq_self_iff_true, if_true]
        have hne : ¬ (ka = k') := fun hh => h (hh.symm)
        rw [List.find?_cons_of_neg, List.find?_cons_of_neg] <;> simp [hne]
      · simp only [setCell, if_neg hk]
        by_cases hk' : ka = k'
        · subst hk'; simp [List.find?]
        · rw [List.find?_cons_of_neg, List.find?_cons_of_neg]
          · exact ih
          · simp [hk']
          · simp [hk']

theorem getCell_mk_setCell_self (idv : Value) (l : List (String × Value)) (k : String)
    (v : Value) (h : k ≠ "id") :
    getCell ⟨idv, setCell l k v⟩ k = v := by
  simp only [getCell, if_neg h, find?_setCell_self]

theorem getCell_mk_setCell_ne (idv : Value) (l : List (String × Value)) (k k' : String)
    (v : Value) (h : k' ≠ k) :
    getCell ⟨idv, setCell l k v⟩ k' = getCell ⟨idv, l⟩ k' := by
  by_cases hid : k' = "id"
  · simp [getCell, hid]
  · simp only [getCell, if_neg hid, find?_setCell_ne l k k' v h]

theorem find?_eq_of_mem_of_nodupkeys (l : List (String × Value)) (k : String) (v : Value)
    (hmem : (k, v) ∈ l) (hnd : (l.map Prod.fst).Nodup) :
    l.find? (fun p => p.1 == k) = some (k, v) := by
  induction l with
  | nil => simp at hmem
  | cons a rest ih =>
    cases a with
    | mk ka va =>
      simp only [List.map_cons, List.nodup_cons] at hnd
      rcases List.mem_cons.mp hmem with h | h
      · cases h
        simp [List.find?]
      · have hne : ka ≠ k := by
          intro hk
          exact hnd.1 (hk ▸ (List.mem_map.mpr ⟨(k, v), h, rfl⟩))
        rw [List.find?_cons_of_neg]
        · exact ih h hnd.2
        · simp [hne]

/-- A fold of fresh-keyed `setCell` writes is plain appending. -/
theorem foldl_setCell_append {α : Type} (keyF : α → String) (valF : α → Value) :
    ∀ (l : List α) (init : List (String × Value)),
      (∀ q ∈ l, keyF q ∉ init.map Prod.fst) →
      l.Pairwise (fun a b => keyF a ≠ keyF b) →
      l.foldl (fun acc q => setCell acc (keyF q) (valF q)) init =
        init ++ l.map (fun q => (keyF q, valF q)) := by
  intro l
  induction l with
  | nil => intro init _ _; simp
  | cons a rest ih =>
    intro init hfresh hpw
    simp only [List.foldl_cons, List.map_cons]
    rw [setCell_fresh init (keyF a) (valF a) (hfresh a (List.mem_cons_self a rest))]
    rw [ih (init ++ [(keyF a, valF a)])]
    · simp
    · intro q hq
      simp only [List.map_append, List.mem_append, List.map_cons, List.map_nil,
        List.mem_singleton, not_or]
      exact ⟨hfresh q (List.mem_cons_of_mem a hq),
        by simpa using ((List.pairwise_cons.mp hpw).1 q hq).symm⟩
    · exact (List.pairwise_cons.mp hpw).2

/-! ### Injectivity of the decimal rendering of row indices -/

theorem toDigitsCore_append_eq (fuel n : ℕ) (acc : List Char) :
    Nat.toDigitsCore 10 fuel n acc = Nat.toDigitsCore 10 fuel n [] ++ acc := by
  induction fuel generalizing n acc with
  | zero => simp [Nat.toDigitsCore]
  | succ f ih =>
    simp only [Nat.toDigitsCore]
    by_cases h : n / 10 = 0
    · simp [h]
    · simp only [h, if_false]
      rw [ih (n / 10) (Nat.digitChar (n % 10) :: acc),
        ih (n / 10) [Nat.digitChar (n % 10)], List.append_assoc]
      rfl

theorem digitsVal_append_singleton (l : List Char) (c : Char) :
    digitsVal (l ++ [c]) = 10 * digitsVal l + (c.toNat - 48) := by
  simp [digitsVal, List.foldl_append]

theorem digitChar_val (r : ℕ) (h : r < 10) : (Nat.digitChar r).toNat - 48 = r := by
  interval_cases r <;> rfl

theorem digitsVal_toDigitsCore (fuel n : ℕ) (h : n < fuel) :
    digitsVal (Nat.toDigitsCore 10 fuel n []) = n := by
  induction fuel generalizing n with
  | zero => omega
  | succ f ih =>
    simp only [Nat.toDigitsCore]
    by_cases hd : n / 10 = 0
    · simp only [hd, if_true]
      have hn : n < 10 := by omega
      have : digitsVal [Nat.digitChar (n % 10)] = (Nat.digitChar (n % 10)).toNat - 48 := by
        simp [digitsVal]
      rw [this, digitChar_val (n % 10) (Nat.mod_lt n (by norm_num))]
      omega
    · simp only [hd, if_false]
      rw [toDigitsCore_append_eq, digitsVal_append_singleton,
        digitChar_val (n % 10) (Nat.mod_lt n (by omega)), ih (n / 10) (by omega)]
      omega

theorem natRepr_injective : Function.Injective Nat.repr := by
  intro m n h
  have hm : digitsVal (Nat.toDigits 10 m) = m :=
    digitsVal_toDigitsCore (m + 1) m (Nat.lt_succ_self m)
  have hn : digitsVal (Nat.toDigits 10 n) = n :=
    digitsVal_toDigitsCore (n + 1) n (Nat.lt_succ_self n)
  have : Nat.toDigits 10 m = Nat.toDigits 10 n := by
    have := congrArg String.data h
    simpa [Nat.repr, List.asString] using this
  rw [← hm, ← hn, this]

theorem rowKeyStr_injective (i j : ℕ) (h : "Row_" ++ toString i = "Row_" ++ toString j) :
    i = j := by
  have hd := congrArg String.data h
  simp only [String.data_append] at hd
  have := List.append_cancel_left hd
  exact natRepr_injective (by simpa [String.ext_iff] using this)

theorem rowKeyStr_ne_attribute (i : ℕ) : "Row_" ++ toString i ≠ "Attribute" := by
  intro h
  have hd := congrArg String.data h
  simp only [String.data_append] at hd
  have : 'R' = 'A' := by
    have := congrArg (fun l => l.headI) hd
    simpa using this
  simp at this

theorem rowKeyStr_ne_id (i : ℕ) : "Row_" ++ toString i ≠ "id" := by
  intro h
  have hd := congrArg String.data h
  simp only [String.data_append] at hd
  have : 'R' = 'i' := by
    have := congrArg (fun l => l.headI) hd
    simpa using this
  simp at this

/-! ### JS slice arithmetic -/

theorem jsSlice_full {α : Type} (l : List α) (e : ℤ) (h : (l.length : ℤ) ≤ e) :
    jsSlice l 0 e = l := by
  unfold jsSlice
  have h0 : ¬ ((0 : ℤ) < 0) := by omega
  have he : ¬ (e < 0) := by omega
  simp only [if_neg h0, if_neg he]
  have hmin0 : min (0 : ℤ) (l.length : ℤ) = 0 := min_eq_left (by positivity)
  have hmine : min e (l.length : ℤ) = (l.length : ℤ) := min_eq_right h
  rw [hmin0, hmine]
  simp

theorem jsSlice_nil_of_le {α : Type} (l : List α) (s e : ℤ) (h0 : 0 ≤ e) (h : e ≤ s) :
    jsSlice l s e = [] := by
  unfold jsSlice
  have hs : ¬ (s < 0) := by omega
  have he : ¬ (e < 0) := by omega
  simp only [if_neg hs, if_neg he]
  apply List.drop_eq_nil_of_le
  calc (l.take (min e (l.length : ℤ)).toNat).length
      ≤ (min e (l.length : ℤ)).toNat := by simp [List.length_take]
    _ ≤ (min s (l.length : ℤ)).toNat := by
        apply Int.toNat_le_toNat
        exact min_le_min h le_rfl

theorem jsSlice_nil_of_start_ge {α : Type} (l : List α) (s e : ℤ)
    (h : (l.length : ℤ) ≤ s) : jsSlice l s e = [] := by
  unfold jsSlice
  have hs : ¬ (s < 0) := by omega
  simp only [if_neg hs]
  have hmins : min s (l.length : ℤ) = (l.length : ℤ) := min_eq_right h
  rw [hmins]
  apply List.drop_eq_nil_of_le
  calc (l.take (if e < 0 then max ((l.length : ℤ) + e) 0 else min e (l.length : ℤ)).toNat).length
      ≤ l.length := by simp [List.length_take]
    _ = ((l.length : ℤ)).toNat := by simp

theorem jsSlice_neg_start {α : Type} (l : List α) (k : ℕ) (hk : 0 < k)
    (hkl : k ≤ l.length) :
    jsSlice l (-(k : ℤ)) (l.length : ℤ) = l.drop (l.length - k) := by
  unfold jsSlice
  have hs : (-(k : ℤ)) < 0 := by omega
  have he : ¬ ((l.length : ℤ) < 0) := by omega
  simp only [if_pos hs, if_neg he]
  have hmax : max ((l.length : ℤ) + -(k : ℤ)) 0 = (l.length : ℤ) - (k : ℤ) := by omega
  have hmin : min (l.length : ℤ) (l.length : ℤ) = (l.length : ℤ) := min_self _
  rw [hmax, hmin]
  have h1 : ((l.length : ℤ) - (k : ℤ)).toNat = l.length - k := by omega
  simp [h1]

/-- Indexing an enumerate-then-map list. -/
theorem getD_enum_map {α β : Type} (l : List α) (f : ℕ × α → β) (i : ℕ)
    (hi : i < l.length) (dflt : β) :
    (l.enum.map f).getD i dflt = f (i, l.get ⟨i, hi⟩) := by
  have h1 : i < (l.enum.map f).length := by simp [List.enum_length, hi]
  rw [List.getD_eq_getElem _ _ h1]
  simp [List.getElem_map, List.getElem_enum]

/-- The analyzer's column names are exactly the first row's keys (with
`id` filtered out), independently of the intrinsics. -/
theorem analyzeColumns_names (env : JsIntrinsics) (rows : List DataRow) :
    (analyzeColumns env rows).map (fun c => c.name) =
      (match rows with
       | [] => []
       | r0 :: _ => (rowKeys r0).filter (fun k => k ≠ "id")) := by
  cases rows with
  | nil => rfl
  | cons r0 rest =>
    simp only [analyzeColumns, List.map_map]
    exact List.map_id _

/-! ### Claim C7: ingestion scenario -/

/-- The raw grid of the ingestion scenario, as the six parsed lines of
the claim (dynamic typing turning "30"/"25"/"40" into numbers, empty
fields into nulls, and the blank line into one empty field). -/
def scenarioGrid : List (List Value) :=
  [ [.str "REPORT", .nullV, .nullV, .nullV],
    [.str ""],
    [.str "Name", .str "Age", .str "City"],
    [.str "Ann", .num 30, .str "NY"],
    [.str "Bo", .num 25, .str "LA"],
    [.str "Cy", .num 40, .str "SF"] ]

/-- C7: ingesting the raw grid ["REPORT,,,", "", "Name,Age,City",
"Ann,30,NY", "Bo,25,LA", "Cy,40,SF"] selects row index 2 as the header
(the row among the first 20 maximizing the count of non-empty textual
cells), sets droppedRows to 2, yields exactly the columns
["Name", "Age", "City"], and produces 3 data rows. -/
theorem processRawData_scenario (env : JsIntrinsics) :
    (processRawData env scenarioGrid "report.csv").stats.droppedRows = 2 ∧
    (processRawData env scenarioGrid "report.csv").columns.map (fun c => c.name) =
      ["Name", "Age", "City"] ∧
    (processRawData env scenarioGrid "report.csv").rows.length = 3 ∧
    (processRawData env scenarioGrid "report.csv").rows.map (fun r => getCell r "Name") =
      [.str "Ann", .str "Bo", .str "Cy"] :=
  ⟨rfl, rfl, rfl, rfl⟩

/-! ### Claim C9: analyzer scenario -/

/-- A four-row dataset fragment whose single column `V` holds
[1, 2, null, 4]. -/
def rowsC9 : List DataRow :=
  [⟨.num 0, [("V", .num 1)]⟩, ⟨.num 1, [("V", .num 2)]⟩,
   ⟨.num 2, [("V", .nullV)]⟩, ⟨.num 3, [("V", .num 4)]⟩]

/-- C9: for a column whose values over four rows are [1, 2, null, 4],
`analyzeColumns` infers type number and reports missingCount 1,
uniqueCount 4 (distinct stringified values, the missing value counting
as the distinct string "null"), and mean 7/3, which is within 0.001 of
2.333. -/
theorem analyzeColumns_scenario (env : JsIntrinsics) :
    (analyzeColumns env rowsC9).map (fun c => c.type) = [CType.number] ∧
    (analyzeColumns env rowsC9).map (fun c => c.missingCount) = [1] ∧
    (analyzeColumns env rowsC9).map (fun c => c.uniqueCount) = [4] ∧
    (analyzeColumns env rowsC9).map (fun c => c.mean) = [some (7 / 3)] ∧
    |(7 : ℚ) / 3 - 2333 / 1000| < 1 / 1000 := by
  refine ⟨rfl, rfl, rfl, ?_, by rw [abs_lt]; constructor <;> norm_num⟩
  have h0 : (analyzeColumns env rowsC9).map (fun c => c.mean) =
      [some (((0 : ℚ) + 1 + 2 + 4) / ((3 : ℕ) : ℚ))] := rfl
  rw [h0]
  norm_num

/-! ### Claims C3 and C10: calculated columns -/

/-- The function the host formula compiler produces for the text
"Price * Quantity" over the argument columns [Price, Quantity]:
positional multiplication of the two coerced arguments. -/
def mulPQ : List ℚ → FormulaOutcome :=
  fun args => .res (.num ((args.getD 0 0) * (args.getD 1 0)))

/-- An intrinsics instance whose formula compiler knows exactly the
scenario formula. -/
def mulEnv : JsIntrinsics :=
  { defaultEnv with compileFormula := fun fm cols =>
      if fm = "Price * Quantity" ∧ cols = ["Price", "Quantity"] then some mulPQ else none }

/-- The two-row scenario dataset: rows {Price: 10, Quantity: 2} and
{Price: "bad", Quantity: 3}. -/
def dPQ : Dataset :=
  ⟨"PQ",
   [⟨.num 0, [("Price", .num 10), ("Quantity", .num 2)]⟩,
    ⟨.num 1, [("Price", .str "bad"), ("Quantity", .num 3)]⟩],
   [⟨"Price", "Price", .strT, 0, 2, none, none, none, true, 0, none⟩,
    ⟨"Quantity", "Quantity", .number, 0, 2, some 2, some 3, none, true, 0, none⟩],
   ⟨2, 4, 0, 0⟩⟩

/-- C3: if the formula fails to compile, `createCalculatedColumn` fails
with the source's error before any row is processed (no partial
dataset is produced - the operation returns only the error); if it
compiles, every row is processed (the row count is preserved), and any
row whose evaluation throws or yields NaN gets 0 in the new cell.  In
particular "Price * Quantity" over {Price: 10, Quantity: 2} and
{Price: "bad", Quantity: 3} yields 20 and 0 with no exception. -/
theorem createCalculatedColumn_claim (env : JsIntrinsics)
    (hc : env.compileFormula "Price * Quantity"
            (usedColumnNames dPQ "Price * Quantity") = some mulPQ) :
    (∀ d n fm, env.compileFormula fm (usedColumnNames d fm) = none →
        createCalculatedColumn env d n fm = .error "Invalid formula syntax") ∧
    (∀ d n fm f, env.compileFormula fm (usedColumnNames d fm) = some f →
        ∃ ds, createCalculatedColumn env d n fm = .ok ds ∧
          ds.rows.length = d.rows.length ∧
          ∀ i, i < d.rows.length → n ≠ "id" →
            (f (rowArgs d fm (d.rows.getD i ⟨.undefV, []⟩)) = .thrown ∨
             f (rowArgs d fm (d.rows.getD i ⟨.undefV, []⟩)) = .nanRes) →
            getCell (ds.rows.getD i ⟨.undefV, []⟩) n = .num 0) ∧
    (∃ ds, createCalculatedColumn env dPQ "Total" "Price * Quantity" = .ok ds ∧
        ds.rows.map (fun r => getCell r "Total") = [.num 20, .num 0]) := by
  refine ⟨?_, ?_, ?_⟩
  · intro d n fm h
    simp only [createCalculatedColumn, h]
  · intro d n fm f h
    have hcc : createCalculatedColumn env d n fm =
        .ok { d with
                rows := calcRows d n fm f
                columns := analyzeColumns env (calcRows d n fm f) } := by
      simp only [createCalculatedColumn, h]
    refine ⟨_, hcc, by simp [calcRows], ?_⟩
    intro i hi hn hout
    have hlen : i < (calcRows d n fm f).length := by
      simpa [calcRows] using hi
    show getCell ((calcRows d n fm f).getD i ⟨.undefV, []⟩) n = .num 0
    rw [List.getD_eq_getElem _ _ hlen]
    simp only [calcRows, List.getElem_map]
    rw [List.getD_eq_getElem _ _ hi] at hout
    rcases hout with hout | hout <;>
      · rw [getCell_mk_setCell_self _ _ _ _ hn, hout]
        rfl
  · have hcc : createCalculatedColumn env dPQ "Total" "Price * Quantity" =
        .ok { dPQ with
                rows := calcRows dPQ "Total" "Price * Quantity" mulPQ
                columns := analyzeColumns env (calcRows dPQ "Total" "Price * Quantity" mulPQ) } := by
      simp only [createCalculatedColumn, hc]
    refine ⟨_, hcc, ?_⟩
    show (calcRows dPQ "Total" "Price * Quantity" mulPQ).map (fun r => getCell r "Total") =
      [.num 20, .num 0]
    have h1 : (calcRows dPQ "Total" "Price * Quantity" mulPQ).map (fun r => getCell r "Total") =
        [.num ((10 : ℚ) * 2), .num (0 * 3)] := rfl
    rw [h1]
    norm_num

/-- Witness for C3 at the scenario inputs. -/
theorem createCalculatedColumn_claim_witness :
    ∃ ds, createCalculatedColumn mulEnv dPQ "Total" "Price * Quantity" = .ok ds ∧
        ds.rows.map (fun r => getCell r "Total") = [.num 20, .num 0] :=
  (createCalculatedColumn_claim mulEnv rfl).2.2

/-- C10: whenever `createCalculatedColumn` succeeds, the result carries
the input's stats record completely unchanged (originalRows,
totalCells, imputedCells and droppedRows included), even though one
column was added to every row. -/
theorem createCalculatedColumn_stats (env : JsIntrinsics) (d : Dataset) (n fm : String)
    (ds : Dataset) (h : createCalculatedColumn env d n fm = .ok ds) :
    ds.stats = d.stats := by
  unfold createCalculatedColumn at h
  cases hc : env.compileFormula fm (usedColumnNames d fm) with
  | none => rw [hc] at h; exact Except.noConfusion h
  | some f =>
    rw [hc] at h
    injection h with h'
    rw [← h']

/-- Witness for C10 at the scenario inputs. -/
theorem createCalculatedColumn_stats_witness :
    ∃ ds, createCalculatedColumn mulEnv dPQ "Total" "Price * Quantity" = Except.ok ds ∧
      ds.stats = dPQ.stats :=
  ⟨_, rfl, createCalculatedColumn_stats mulEnv dPQ "Total" "Price * Quantity" _ rfl⟩

/-! ### Claim C1: join key handling -/

/-- A one-row primary dataset with single column A. -/
def pC1 : Dataset :=
  ⟨"P", [⟨.num 0, [("A", .num 1)]⟩],
   [⟨"A", "A", .number, 0, 1, some 1, some 1, some 1, true, 0, none⟩], ⟨1, 1, 0, 0⟩⟩

/-- A one-row secondary dataset with single column B. -/
def sC1 : Dataset :=
  ⟨"S", [⟨.num 0, [("B", .num 7)]⟩],
   [⟨"B", "B", .number, 0, 1, some 7, some 7, some 7, true, 0, none⟩], ⟨1, 1, 0, 0⟩⟩

/-- C1 counterexample: with the key columns K and J absent from both
datasets, `joinDatasets` does not fail - it returns a merged dataset.
Both absent keys stringify to "undefined", so the single primary row
even spuriously matches the single secondary row and receives its B
field. -/
theorem joinDatasets_counterexample :
    ("K" ∉ pC1.columns.map (fun c => c.name)) ∧
    ("J" ∉ sC1.columns.map (fun c => c.name)) ∧
    (joinDatasets defaultEnv pC1 sC1 "K" "J").rows =
      [⟨.num 0, [("A", .num 1), ("B", .num 7)]⟩] := by
  decide

/-- C1 amended: `joinDatasets` performs no key validation and never
fails; for all inputs (key columns present or absent) it returns a
merged dataset with exactly one output row per primary row and the
concatenated display name. -/
theorem joinDatasets_amended (env : JsIntrinsics) (p s : Dataset) (pk sk : String) :
    (joinDatasets env p s pk sk).rows.length = p.rows.length ∧
    (joinDatasets env p s pk sk).name = p.name ++ " + " ++ s.name := by
  exact ⟨by simp [joinDatasets], rfl⟩

/-! ### Claim C8: crop -/

/-- A one-row dataset used for the crop counterexample and witness. -/
def dC8 : Dataset :=
  ⟨"D8", [⟨.num 0, [("A", .num 1)]⟩],
   [⟨"A", "A", .number, 0, 1, some 1, some 1, some 1, true, 0, none⟩], ⟨1, 1, 0, 0⟩⟩

/-- C8 counterexample: cropping a one-row dataset with the out-of-range
bounds startRow = 5, endRow = 9 is not a no-op returning the input
content - it returns a dataset with zero rows (JS slice clamps the
start to the array length). -/
theorem cropDataset_counterexample :
    (cropDataset defaultEnv dC8 5 9 none).rows = [] ∧ dC8.rows ≠ [] := by
  decide

/-- C8 amended: crop(d, 0, rowCount-1) is a content no-op (cells kept,
ids re-indexed, droppedRows unchanged), and the same holds for any
endRow at or beyond rowCount-1; in-range startRow > endRow yields zero
rows; out-of-range bounds never throw but follow JS slice clamping:
startRow at or past rowCount yields zero rows, and a negative startRow
counts from the end of the rows. -/
theorem cropDataset_amended (env : JsIntrinsics) (d : Dataset) :
    (∀ e : ℤ, (d.rows.length : ℤ) - 1 ≤ e →
       (cropDataset env d 0 e none).rows.length = d.rows.length ∧
       (cropDataset env d 0 e none).stats.droppedRows = d.stats.droppedRows ∧
       (∀ i, ∀ hi : i < d.rows.length,
         ((cropDataset env d 0 e none).rows.getD i ⟨.undefV, []⟩).cells =
           (d.rows.get ⟨i, hi⟩).cells ∧
         ((cropDataset env d 0 e none).rows.getD i ⟨.undefV, []⟩).id = .num i)) ∧
    (∀ s e : ℤ, 0 ≤ e → e < s → s ≤ (d.rows.length : ℤ) - 1 →
       (cropDataset env d s e none).rows = []) ∧
    (∀ s e : ℤ, (d.rows.length : ℤ) ≤ s → (cropDataset env d s e none).rows = []) ∧
    (∀ k : ℕ, 0 < k → k ≤ d.rows.length →
       (cropDataset env d (-(k : ℤ)) ((d.rows.length : ℤ) - 1) none).rows.length = k) := by
  refine ⟨?_, ?_, ?_, ?_⟩
  · intro e he
    have hslice : jsSlice d.rows 0 (e + 1) = d.rows :=
      jsSlice_full d.rows (e + 1) (by omega)
    refine ⟨?_, ?_, ?_⟩
    · simp [cropDataset, hslice, List.enum_length]
    · simp [cropDataset, hslice]
    · intro i hi
      have h1 : (cropDataset env d 0 e none).rows =
          d.rows.enum.map (fun p => { p.2 with id := Value.num p.1 }) := by
        simp [cropDataset, hslice]
      rw [h1, getD_enum_map d.rows _ i hi]
      exact ⟨rfl, rfl⟩
  · intro s e h0 hlt _
    have hslice : jsSlice d.rows s (e + 1) = [] :=
      jsSlice_nil_of_le d.rows s (e + 1) (by omega) (by omega)
    simp [cropDataset, hslice]
  · intro s e hs
    have hslice : jsSlice d.rows s (e + 1) = [] :=
      jsSlice_nil_of_start_ge d.rows s (e + 1) hs
    simp [cropDataset, hslice]
  · intro k hk hkl
    have hslice : jsSlice d.rows (-(k : ℤ)) ((d.rows.length : ℤ)) =
        d.rows.drop (d.rows.length - k) := jsSlice_neg_start d.rows k hk hkl
    have harg : ((d.rows.length : ℤ) - 1) + 1 = (d.rows.length : ℤ) := by omega
    simp [cropDataset, harg, hslice, List.enum_length]
    omega

/-- Witness for C8: on the one-row dataset, a full-range crop keeps the
row and an out-of-range start empties the dataset. -/
theorem cropDataset_amended_witness :
    (cropDataset defaultEnv dC8 0 0 none).rows.length = dC8.rows.length ∧
    (cropDataset defaultEnv dC8 5 9 none).rows = [] :=
  ⟨((cropDataset_amended defaultEnv dC8).1 0 (by decide)).1,
   (cropDataset_amended defaultEnv dC8).2.2.1 5 9 (by decide)⟩

/-! ### Claim C2: transformation pipeline -/

/-- The five `TransformationType` variants the switch implements; the
other four fall through with no case. -/
def handledKind : TransformKind → Bool
  | .split_count | .split_extract | .to_uppercase | .math_log | .math_add => true
  | _ => false

/-- Indexing a mapped list below its length. -/
theorem getD_map {α β : Type} (l : List α) (f : α → β) (i : ℕ) (hi : i < l.length)
    (dflt : β) : (l.map f).getD i dflt = f (l.get ⟨i, hi⟩) := by
  have h1 : i < (l.map f).length := by simpa using hi
  rw [List.getD_eq_getElem _ _ h1]
  simp

/-- No implemented transformation derives the column name "id": every
derived name carries a fixed affix of length at least 4. -/
theorem derivedName_ne_id (config : TransformationConfig)
    (h : handledKind config.type = true) : derivedName config ≠ "id" := by
  obtain ⟨ty, t, ps⟩ := config
  intro heq
  have hlen := congrArg String.length heq
  cases ty <;> simp [handledKind] at h <;>
    simp only [derivedName, String.length_append,
      show ("_Count").length = 6 from rfl, show ("_Part").length = 5 from rfl,
      show ("_Upper").length = 6 from rfl, show ("Log_").length = 4 from rfl,
      show ("_Plus").length = 5 from rfl, show ("id").length = 2 from rfl] at hlen <;>
    omega

/-- Every implemented transformation maps each row to a copy of itself
carrying one `setCell` write of the derived column. -/
theorem applyTransformation_rows_handled (env : JsIntrinsics) (d : Dataset)
    (config : TransformationConfig) (h : handledKind config.type = true) :
    ∃ valF : DataRow → Value,
      (applyTransformation env d config).rows =
        d.rows.map (fun r =>
          { r with cells := setCell r.cells (derivedName config) (valF r) }) := by
  obtain ⟨ty, t, ps⟩ := config
  cases ty <;> simp [handledKind] at h
  case split_count =>
    exact ⟨fun r => .num ((jsSplit (strOrEmpty (getCell r t)) ps.delimiter).length), rfl⟩
  case split_extract =>
    refine ⟨fun r =>
      .str (match ps.index with
            | some i => if 0 ≤ i then
                (jsSplit (strOrEmpty (getCell r t)) ps.delimiter).getD i.toNat "" else ""
            | none => ""), rfl⟩
  case to_uppercase =>
    exact ⟨fun r => .str (strOrEmpty (getCell r t)).toUpper, rfl⟩
  case math_log =>
    exact ⟨fun r => if jsTruthy (getCell r t) then env.log (jsToNumber (getCell r t))
                    else .num 0, rfl⟩
  case math_add =>
    exact ⟨fun r => .num ((jsToNumber (getCell r t)).getD 0 + ps.value.getD 0), rfl⟩

/-- C2 amended: for the five implemented operations, the transformation
preserves every row in order (same ids); every column other than the
derived one keeps its value in every row; when the derived name is not
already among a row's keys it is appended as exactly one new cell, but
when it is already present (as on a second application of the same
transformation to the same target) it is overwritten in place and the
key set is unchanged - no new column is added. Accordingly the
re-analyzed column list is the input rows' column list plus the derived
name exactly when the derived name was fresh in the first row. -/
theorem applyTransformation_amended (env : JsIntrinsics) (d : Dataset)
    (config : TransformationConfig) (h : handledKind config.type = true) :
    (applyTransformation env d config).rows.length = d.rows.length ∧
    (∀ i, ∀ hi : i < d.rows.length,
       ((applyTransformation env d config).rows.getD i ⟨.undefV, []⟩).id =
         (d.rows.get ⟨i, hi⟩).id ∧
       (∀ k, k ≠ derivedName config →
         getCell ((applyTransformation env d config).rows.getD i ⟨.undefV, []⟩) k =
           getCell (d.rows.get ⟨i, hi⟩) k) ∧
       (derivedName config ∉ rowKeys (d.rows.get ⟨i, hi⟩) →
         rowKeys ((applyTransformation env d config).rows.getD i ⟨.undefV, []⟩) =
           rowKeys (d.rows.get ⟨i, hi⟩) ++ [derivedName config]) ∧
       (derivedName config ∈ rowKeys (d.rows.get ⟨i, hi⟩) →
         rowKeys ((applyTransformation env d config).rows.getD i ⟨.undefV, []⟩) =
           rowKeys (d.rows.get ⟨i, hi⟩))) ∧
    (∀ r0 rest, d.rows = r0 :: rest →
       derivedName config ∉ rowKeys r0 →
       (applyTransformation env d config).columns.map (fun c => c.name) =
         (analyzeColumns env d.rows).map (fun c => c.name) ++ [derivedName config]) := by
  obtain ⟨valF, hrows⟩ := applyTransformation_rows_handled env d config h
  refine ⟨by rw [hrows]; simp, ?_, ?_⟩
  · intro i hi
    rw [hrows, getD_map d.rows _ i hi]
    refine ⟨rfl, ?_, ?_, ?_⟩
    · intro k hk
      exact getCell_mk_setCell_ne _ _ _ _ _ hk
    · intro hfresh
      exact setCell_keys_fresh _ _ _ hfresh
    · intro hmem
      exact setCell_keys_of_mem _ _ _ hmem
  · intro r0 rest hd hfresh
    have hcols : (applyTransformation env d config).columns =
        analyzeColumns env ((applyTransformation env d config).rows) := by
      obtain ⟨ty, t, ps⟩ := config
      cases ty <;> rfl
    rw [hcols, hrows, analyzeColumns_names, analyzeColumns_names, hd]
    simp only [List.map_cons]
    show (rowKeys ⟨r0.id, setCell r0.cells (derivedName ⟨_, _, _⟩) (valF r0)⟩).filter
        (fun k => k ≠ "id") = (rowKeys r0).filter (fun k => k ≠ "id") ++ [derivedName ⟨_, _, _⟩]
    rw [show rowKeys ⟨r0.id, setCell r0.cells (derivedName ⟨_, _, _⟩) (valF r0)⟩ =
        (setCell r0.cells (derivedName ⟨_, _, _⟩) (valF r0)).map Prod.fst from rfl]
    rw [setCell_keys_fresh _ _ _ hfresh, List.filter_append]
    congr 1
    simp [derivedName_ne_id _ h]

/-- A one-row dataset with the single string column A, value "x,y". -/
def dC2 : Dataset :=
  ⟨"D", [⟨.num 0, [("A", .str "x,y")]⟩],
   [⟨"A", "A", .strT, 0, 1, none, none, none, true, 0, none⟩], ⟨1, 1, 0, 0⟩⟩

/-- The split-count config on column A with delimiter ",". -/
def cfgC2 : TransformationConfig := ⟨.split_count, "A", { delimiter := some "," }⟩

/-- C2 counterexample: applying the same split-count transformation a
second time to the same target column adds no new column - the derived
name A_Count already exists and is overwritten - so the output column
set equals the input column set instead of gaining exactly one new
column. -/
theorem applyTransformation_counterexample :
    ((applyTransformation defaultEnv dC2 cfgC2).columns.map (fun c => c.name) =
       ["A", "A_Count"]) ∧
    ((applyTransformation defaultEnv
        (applyTransformation defaultEnv dC2 cfgC2) cfgC2).columns.map (fun c => c.name) =
       ["A", "A_Count"]) := by
  decide

/-- Witness for C2 at the concrete one-row dataset. -/
theorem applyTransformation_amended_witness :
    (applyTransformation defaultEnv dC2 cfgC2).rows.length = dC2.rows.length ∧
    rowKeys ((applyTransformation defaultEnv dC2 cfgC2).rows.getD 0 ⟨.undefV, []⟩) =
      rowKeys (dC2.rows.get ⟨0, by decide⟩) ++ [derivedName cfgC2] :=
  ⟨(applyTransformation_amended defaultEnv dC2 cfgC2 (by decide)).1,
   ((applyTransformation_amended defaultEnv dC2 cfgC2 (by decide)).2.1 0
       (by decide)).2.2.1 (by decide)⟩

/-! ### Claim C6: promote row to header -/

/-- With pairwise-distinct new keys, the positional remapping loop is
exactly zipping keys with values (truncating at the shorter list). -/
theorem buildNewCells_eq_zip (ks : List String) (vs : List Value)
    (acc : List (String × Value)) (hnd : ks.Nodup)
    (hdisj : ∀ k ∈ ks, k ∉ acc.map Prod.fst) :
    buildNewCells ks vs acc = acc ++ ks.zip vs := by
  induction ks generalizing vs acc with
  | nil => cases vs <;> simp [buildNewCells]
  | cons k ks ih =>
    cases vs with
    | nil => simp [buildNewCells]
    | cons v vs =>
      simp only [buildNewCells]
      rw [setCell_fresh acc k v (hdisj k (by simp))]
      rw [ih vs (acc ++ [(k, v)]) (List.Nodup.of_cons hnd) ?_]
      · simp
      · intro k' hk'
        simp only [List.map_append, List.mem_append, List.map_cons, List.map_nil,
          List.mem_singleton, not_or]
        refine ⟨hdisj k' (List.mem_cons_of_mem k hk'), ?_⟩
        intro hkk
        exact (List.nodup_cons.mp hnd).1 (hkk ▸ hk')

/-- C6 amended: for every in-range rowIndex, `setHeaderRow` discards
all rows up to and including that index, adds rowIndex+1 to
droppedRows, re-indexes the remaining rows' ids densely, and - when the
chosen row's stringified values (after removing any value equal to the
row's id) are pairwise distinct - remaps each remaining row
positionally onto those values as new keys. Duplicate values are NOT
deduplicated: the remapping loop assigns them in order with the last
positional value winning (see the counterexample). -/
theorem setHeaderRow_amended (env : JsIntrinsics) (d : Dataset) (i : ℕ)
    (hi : i < d.rows.length) :
    (setHeaderRow env d (i : ℤ)).stats.droppedRows = d.stats.droppedRows + (i + 1) ∧
    (setHeaderRow env d (i : ℤ)).rows.length = d.rows.length - (i + 1) ∧
    (∀ j, ∀ hj : j < d.rows.length - (i + 1),
       ((setHeaderRow env d (i : ℤ)).rows.getD j ⟨.undefV, []⟩).id = .num j ∧
       ((headerKeys (d.rows.get ⟨i, hi⟩)).Nodup →
         ((setHeaderRow env d (i : ℤ)).rows.getD j ⟨.undefV, []⟩).cells =
           (headerKeys (d.rows.get ⟨i, hi⟩)).zip
             ((d.rows.get ⟨i + 1 + j, by omega⟩).cells.map Prod.snd))) := by
  have hguard : ¬ ((i : ℤ) < 0 ∨ (d.rows.length : ℤ) ≤ (i : ℤ)) := by
    push_neg
    constructor <;> omega
  have htn : ((i : ℤ)).toNat = i := Int.toNat_natCast i
  have hget : d.rows.get? i = some (d.rows.get ⟨i, hi⟩) := List.get?_eq_get hi
  have hsh : setHeaderRow env d (i : ℤ) =
      { d with
          rows := (d.rows.drop (i + 1)).enum.map (fun p =>
            ({ id := .num p.1,
               cells := buildNewCells (headerKeys (d.rows.get ⟨i, hi⟩))
                 (p.2.cells.map Prod.snd) [] } : DataRow))
          columns := analyzeColumns env ((d.rows.drop (i + 1)).enum.map (fun p =>
            ({ id := .num p.1,
               cells := buildNewCells (headerKeys (d.rows.get ⟨i, hi⟩))
                 (p.2.cells.map Prod.snd) [] } : DataRow)))
          stats := { d.stats with droppedRows := d.stats.droppedRows + (i + 1) } } := by
    unfold setHeaderRow
    rw [if_neg hguard]
    simp only [htn, hget]
  refine ⟨by rw [hsh], by rw [hsh]; simp [List.enum_length], ?_⟩
  intro j hj
  have hjd : j < (d.rows.drop (i + 1)).length := by simp; omega
  rw [hsh]
  show (((d.rows.drop (i + 1)).enum.map _).getD j (⟨.undefV, []⟩ : DataRow)).id = _ ∧ _
  rw [getD_enum_map _ _ j hjd]
  refine ⟨rfl, ?_⟩
  intro hnd
  show buildNewCells (headerKeys (d.rows.get ⟨i, hi⟩))
      (((d.rows.drop (i + 1)).get ⟨j, hjd⟩).cells.map Prod.snd) [] = _
  rw [buildNewCells_eq_zip _ _ [] hnd (by simp)]
  rw [List.nil_append]
  congr 2
  have : (d.rows.drop (i + 1)).get ⟨j, hjd⟩ = d.rows.get ⟨i + 1 + j, by omega⟩ := by
    rw [List.get_drop]
  rw [this]

/-- A two-row dataset whose first row holds the duplicate value "X" in
both columns. -/
def dC6 : Dataset :=
  ⟨"D6",
   [⟨.num 0, [("A", .str "X"), ("B", .str "X")]⟩,
    ⟨.num 1, [("A", .num 1), ("B", .num 2)]⟩],
   [⟨"A", "A", .strT, 0, 2, none, none, none, true, 0, none⟩,
    ⟨"B", "B", .strT, 0, 2, none, none, none, true, 0, none⟩], ⟨2, 4, 0, 0⟩⟩

/-- C6 counterexample: promoting row 0 of dC6 - whose values are
["X", "X"] - does not deduplicate the duplicate header names: the
result has the single column X (holding the last positional value 2)
instead of two deduplicated columns, and the value 1 is lost. -/
theorem setHeaderRow_counterexample :
    headerKeys (dC6.rows.get ⟨0, by decide⟩) = ["X", "X"] ∧
    (setHeaderRow defaultEnv dC6 0).columns.map (fun c => c.name) = ["X"] ∧
    (setHeaderRow defaultEnv dC6 0).rows.map (fun r => r.cells) = [[("X", .num 2)]] := by
  decide

/-- Witness for C6 at a concrete in-range index on the two-row dataset
with distinct header values ["X", "Y"]. -/
def dC6b : Dataset :=
  ⟨"D6b",
   [⟨.num 0, [("A", .str "X"), ("B", .str "Y")]⟩,
    ⟨.num 1, [("A", .num 1), ("B", .num 2)]⟩],
   [⟨"A", "A", .strT, 0, 2, none, none, none, true, 0, none⟩,
    ⟨"B", "B", .strT, 0, 2, none, none, none, true, 0, none⟩], ⟨2, 4, 0, 0⟩⟩

theorem setHeaderRow_amended_witness :
    (setHeaderRow defaultEnv dC6b (0 : ℤ)).stats.droppedRows =
      dC6b.stats.droppedRows + (0 + 1) ∧
    ((setHeaderRow defaultEnv dC6b ((0 : ℕ) : ℤ)).rows.getD 0 ⟨.undefV, []⟩).cells =
      (headerKeys (dC6b.rows.get ⟨0, by decide⟩)).zip
        ((dC6b.rows.get ⟨0 + 1 + 0, by decide⟩).cells.map Prod.snd) :=
  ⟨(setHeaderRow_amended defaultEnv dC6b 0 (by decide)).1,
   (((setHeaderRow_amended defaultEnv dC6b 0 (by decide)).2.2 0 (by decide)).2 (by decide))⟩

/-! ### Claim C4: correlation matrix -/

theorem foldl_add_const (l : List ℚ) (c : ℚ) (h : ∀ x ∈ l, x = c) (a : ℚ) :
    l.foldl (· + ·) a = a + l.length * c := by
  induction l generalizing a with
  | nil => simp
  | cons x xs ih =>
    have hx : x = c := h x (by simp)
    simp only [List.foldl_cons, List.length_cons]
    rw [ih (fun y hy => h y (by simp [hy])) (a + x), hx]
    push_cast
    ring

theorem foldl_sq_const (l : List ℚ) (c : ℚ) (h : ∀ x ∈ l, x = c) (a : ℚ) :
    l.foldl (fun s b => s + b * b) a = a + l.length * (c * c) := by
  induction l generalizing a with
  | nil => simp
  | cons x xs ih =>
    have hx : x = c := h x (by simp)
    simp only [List.foldl_cons, List.length_cons]
    rw [ih (fun y hy => h y (by simp [hy])) (a + x * x), hx]
    push_cast
    ring

theorem crossSum_comm (l1 l2 : List ℚ) (a : ℚ) :
    (l1.zip l2).foldl (fun s p => s + p.1 * p.2) a =
      (l2.zip l1).foldl (fun s p => s + p.1 * p.2) a := by
  induction l1 generalizing l2 a with
  | nil => cases l2 <;> simp
  | cons x xs ih =>
    cases l2 with
    | nil => simp
    | cons y ys =>
      simp only [List.zip_cons_cons, List.foldl_cons]
      rw [mul_comm y x]
      exact ih ys (a + x * y)

/-- Pearson's r as the source computes it is symmetric in its two
columns, whatever Math.sqrt does (its argument is a commuted product). -/
theorem pearson_symm (env : JsIntrinsics) (d : Dataset) (c1 c2 : String) :
    pearson env d c1 c2 = pearson env d c2 c1 := by
  simp only [pearson]
  have hlen : (numVec d c2).length = (numVec d c1).length := by simp [numVec]
  rw [hlen, crossSum_comm (numVec d c2) (numVec d c1)]
  set s1 := List.foldl (fun x1 x2 => x1 + x2) 0 (numVec d c1) with hs1
  set s2 := List.foldl (fun x1 x2 => x1 + x2) 0 (numVec d c2) with hs2
  set q1 := List.foldl (fun a b => a + b * b) 0 (numVec d c1) with hq1
  set q2 := List.foldl (fun a b => a + b * b) 0 (numVec d c2) with hq2
  set n := (((numVec d c1).length : ℚ)) with hn
  rw [mul_comm (q2 - s2 * s2 / n) (q1 - s1 * s1 / n), mul_comm s2 s1]

/-- The variance factor of a constant column is exactly 0 in the
source's sum-of-squares formulation (including the 0-row case, where
division by zero yields 0 in the rational model). -/
theorem variance_factor_zero (l : List ℚ) (c : ℚ) (h : ∀ x ∈ l, x = c) :
    l.foldl (fun s b => s + b * b) 0 -
      (l.foldl (· + ·) 0) * (l.foldl (· + ·) 0) / (l.length : ℚ) = 0 := by
  rw [foldl_sq_const l c h 0, foldl_add_const l c h 0]
  rcases eq_or_ne ((l.length : ℚ)) 0 with h0 | h0
  · simp [h0]
  · field_simp
    ring

/-- A constant first column forces the source's guarded Pearson
coefficient to exactly 0 (the variance product is exactly 0, Math.sqrt
of 0 is 0, and the `den === 0` guard fires). -/
theorem pearson_zero_of_const (env : JsIntrinsics) (hsqrt : env.sqrt 0 = 0)
    (d : Dataset) (c1 c2 : String) (c : ℚ) (hconst : ∀ x ∈ numVec d c1, x = c) :
    pearson env d c1 c2 = 0 := by
  simp only [pearson]
  rw [variance_factor_zero (numVec d c1) c hconst, zero_mul, hsqrt]
  simp

/-- Entry (i, j) of the correlation matrix, for in-range indices when
the matrix is non-empty. -/
theorem correlationMatrix_entry (env : JsIntrinsics) (d : Dataset)
    (h2 : ¬ ((activeNumericNames d).length < 2)) (i j : ℕ)
    (hi : i < (activeNumericNames d).length) (hj : j < (activeNumericNames d).length) :
    ((calculateCorrelationMatrix env d).2.getD i []).getD j 0 =
      if i = j then 1
      else pearson env d ((activeNumericNames d).get ⟨i, hi⟩)
        ((activeNumericNames d).get ⟨j, hj⟩) := by
  unfold calculateCorrelationMatrix
  rw [if_neg h2]
  rw [getD_enum_map _ _ i hi, getD_enum_map _ _ j hj]

/-- C4: with fewer than 2 active numeric columns the correlation engine
returns the empty result, not an error; otherwise it returns a square
matrix over exactly the active numeric columns that is symmetric, has
exactly 1 on every diagonal entry, and in which every off-diagonal
coefficient involving a zero-variance column is exactly 0 (the
diagonal stays 1 by the index-based guard).  In the exact rational
model no NaN or Infinity can arise: every entry is the rational the
guarded formula defines. -/
theorem calculateCorrelationMatrix_claim (env : JsIntrinsics) (d : Dataset)
    (hsqrt : env.sqrt 0 = 0) :
    ((activeNumericNames d).length < 2 → calculateCorrelationMatrix env d = ([], [])) ∧
    (2 ≤ (activeNumericNames d).length →
      (calculateCorrelationMatrix env d).1 = activeNumericNames d ∧
      (calculateCorrelationMatrix env d).2.length = (activeNumericNames d).length ∧
      (∀ row ∈ (calculateCorrelationMatrix env d).2,
         row.length = (activeNumericNames d).length) ∧
      (∀ i j, i < (activeNumericNames d).length → j < (activeNumericNames d).length →
        ((calculateCorrelationMatrix env d).2.getD i []).getD j 0 =
          ((calculateCorrelationMatrix env d).2.getD j []).getD i 0) ∧
      (∀ i, i < (activeNumericNames d).length →
        ((calculateCorrelationMatrix env d).2.getD i []).getD i 0 = 1) ∧
      (∀ i j, ∀ hi : i < (activeNumericNames d).length,
        ∀ hj : j < (activeNumericNames d).length, i ≠ j →
        (∃ c, ∀ x ∈ numVec d ((activeNumericNames d).get ⟨i, hi⟩), x = c) →
        ((calculateCorrelationMatrix env d).2.getD i []).getD j 0 = 0 ∧
        ((calculateCorrelationMatrix env d).2.getD j []).getD i 0 = 0)) := by
  refine ⟨?_, ?_⟩
  · intro hlt
    unfold calculateCorrelationMatrix
    rw [if_pos hlt]
  · intro h2
    have h2' : ¬ ((activeNumericNames d).length < 2) := by omega
    refine ⟨?_, ?_, ?_, ?_, ?_, ?_⟩
    · unfold calculateCorrelationMatrix
      rw [if_neg h2']
    · unfold calculateCorrelationMatrix
      rw [if_neg h2']
      simp [List.enum_length]
    · intro row hrow
      unfold calculateCorrelationMatrix at hrow
      rw [if_neg h2'] at hrow
      obtain ⟨p, _, hp⟩ := List.mem_map.mp hrow
      rw [← hp]
      simp [List.enum_length]
    · intro i j hi hj
      rw [correlationMatrix_entry env d h2' i j hi hj,
        correlationMatrix_entry env d h2' j i hj hi]
      by_cases hij : i = j
      · subst hij; simp
      · rw [if_neg hij, if_neg (fun hh => hij hh.symm)]
        exact pearson_symm env d _ _
    · intro i hi
      rw [correlationMatrix_entry env d h2' i i hi hi]
      simp
    · intro i j hi hj hij hconst
      obtain ⟨c, hc⟩ := hconst
      constructor
      · rw [correlationMatrix_entry env d h2' i j hi hj, if_neg hij]
        exact pearson_zero_of_const env hsqrt d _ _ c hc
      · rw [correlationMatrix_entry env d h2' j i hj hi,
          if_neg (fun hh => hij hh.symm)]
        rw [pearson_symm env d _ _]
        exact pearson_zero_of_const env hsqrt d _ _ c hc

/-- A two-row dataset with two constant active numeric columns. -/
def dC4 : Dataset :=
  ⟨"C4",
   [⟨.num 0, [("X", .num 5), ("Y", .num 3)]⟩,
    ⟨.num 1, [("X", .num 5), ("Y", .num 3)]⟩],
   [⟨"X", "X", .number, 0, 1, some 5, some 5, some 5, true, 0, none⟩,
    ⟨"Y", "Y", .number, 0, 1, some 3, some 3, some 3, true, 0, none⟩], ⟨2, 4, 0, 0⟩⟩

/-- Witness for C4: on the two-column constant dataset, the diagonal is
1 and the constant-column coefficient is exactly 0. -/
theorem calculateCorrelationMatrix_claim_witness :
    ((calculateCorrelationMatrix defaultEnv dC4).2.getD 0 []).getD 0 0 = 1 ∧
    ((calculateCorrelationMatrix defaultEnv dC4).2.getD 0 []).getD 1 0 = 0 :=
  ⟨((calculateCorrelationMatrix_claim defaultEnv dC4 rfl).2 (by decide)).2.2.2.2.1
      0 (by decide),
   (((calculateCorrelationMatrix_claim defaultEnv dC4 rfl).2 (by decide)).2.2.2.2.2
      0 1 (by decide) (by decide) (by decide) ⟨5, by decide⟩).1⟩

/-! ### Claim C5: double transpose -/

theorem enum_pairwise_ne_fst {α : Type} (l : List α) :
    l.enum.Pairwise (fun a b => a.1 ≠ b.1) := by
  have h := List.nodup_enum_map_fst l
  rw [List.Nodup, List.pairwise_map] at h
  exact h

/-- The cell list a transposed row is built with: the `Attribute` cell
followed by one `Row_i` cell per original row, in order. -/
theorem transpose_row_cells (rows : List DataRow) (key : String) :
    rows.enum.foldl (fun acc q => setCell acc ("Row_" ++ toString q.1) (getCell q.2 key))
      [("Attribute", .str key)] =
    ("Attribute", .str key) ::
      rows.enum.map (fun q => ("Row_" ++ toString q.1, getCell q.2 key)) := by
  rw [foldl_setCell_append (fun q => "Row_" ++ toString q.1) (fun q => getCell q.2 key)
      rows.enum [("Attribute", .str key)] ?_ ?_]
  · simp
  · intro q _
    simp [rowKeyStr_ne_attribute]
  · exact (enum_pairwise_ne_fst rows).imp (fun h hh => h (rowKeyStr_injective _ _ hh))

/-- The keys of an `Attribute`-headed list of `Row_i` cells are
pairwise distinct, whatever the cell values are. -/
theorem rowkey_list_keys_nodup {α : Type} (l : List α) (v0 : Value)
    (valF : ℕ × α → Value) :
    ((("Attribute", v0) :: l.enum.map
        (fun q => ("Row_" ++ toString q.1, valF q))).map Prod.fst).Nodup := by
  simp only [List.map_cons, List.map_map]
  rw [List.nodup_cons]
  constructor
  · intro hmem
    obtain ⟨q, _, hk⟩ := List.mem_map.mp hmem
    exact rowKeyStr_ne_attribute q.1 hk
  · rw [List.Nodup, List.pairwise_map]
    exact (enum_pairwise_ne_fst l).imp (fun h hh => h (rowKeyStr_injective _ _ hh))

/-- Reading column `Row_j` off an `Attribute`-headed list of `Row_i`
cells returns the j-th cell value. -/
theorem getCell_rowkey_list {α : Type} (idv : Value) (l : List α) (v0 : Value)
    (valF : ℕ × α → Value) (j : ℕ) (hj : j < l.length) :
    getCell ⟨idv, ("Attribute", v0) ::
        l.enum.map (fun q => ("Row_" ++ toString q.1, valF q))⟩
      ("Row_" ++ toString j) = valF (j, l.get ⟨j, hj⟩) := by
  have henum : (j, l.get ⟨j, hj⟩) ∈ l.enum := by
    have h1 : j < l.enum.length := by simpa [List.enum_length] using hj
    have h2 := @List.getElem_mem _ l.enum j h1
    rw [List.getElem_enum] at h2
    simpa [List.get_eq_getElem] using h2
  have hmem : ("Row_" ++ toString j, valF (j, l.get ⟨j, hj⟩)) ∈
      ("Attribute", v0) :: l.enum.map (fun q => ("Row_" ++ toString q.1, valF q)) :=
    List.mem_cons_of_mem _ (List.mem_map.mpr ⟨(j, l.get ⟨j, hj⟩), henum, rfl⟩)
  unfold getCell
  rw [if_neg (rowKeyStr_ne_id j)]
  rw [find?_eq_of_mem_of_nodupkeys _ _ _ hmem (rowkey_list_keys_nodup l v0 valF)]

/-- Reading `Attribute` off a cell list headed by the attribute cell. -/
theorem getCell_attribute_head (idv v0 : Value) (rest : List (String × Value)) :
    getCell ⟨idv, ("Attribute", v0) :: rest⟩ "Attribute" = v0 := by
  unfold getCell
  rw [if_neg (by decide)]
  simp [List.find?]

/-- The row list `transposeDataset` constructs, exposed for rewriting. -/
theorem transposeDataset_rows (env : JsIntrinsics) (d : Dataset) :
    (transposeDataset env d).rows =
      (d.columns.map (fun c => c.name)).enum.map (fun p =>
        (⟨.num p.1, d.rows.enum.foldl (fun acc q =>
            setCell acc ("Row_" ++ toString q.1) (getCell q.2 p.2))
          [("Attribute", .str p.2)]⟩ : DataRow)) := rfl

/-- A transposed dataset's re-analyzed column names: `Attribute`
followed by one `Row_i` per original row. -/
theorem transpose_columns_names (env : JsIntrinsics) (d : Dataset)
    (hcols : d.columns ≠ []) :
    (transposeDataset env d).columns.map (fun c => c.name) =
      "Attribute" :: (List.range d.rows.length).map (fun i => "Row_" ++ toString i) := by
  cases hc : d.columns with
  | nil => exact absurd hc hcols
  | cons c0 cs =>
    have hrows : (transposeDataset env d).rows =
        (⟨.num 0, d.rows.enum.foldl (fun acc q =>
            setCell acc ("Row_" ++ toString q.1) (getCell q.2 c0.name))
          [("Attribute", .str c0.name)]⟩ : DataRow) ::
        ((cs.map (fun c => c.name)).enumFrom 1).map (fun p =>
          (⟨.num p.1, d.rows.enum.foldl (fun acc q =>
              setCell acc ("Row_" ++ toString q.1) (getCell q.2 p.2))
            [("Attribute", .str p.2)]⟩ : DataRow)) := by
      rw [transposeDataset_rows, hc]
      rfl
    have hcolumns : (transposeDataset env d).columns =
        analyzeColumns env ((transposeDataset env d).rows) := rfl
    rw [hcolumns, hrows, analyzeColumns_names]
    show (rowKeys ⟨.num 0, d.rows.enum.foldl _ [("Attribute", .str c0.name)]⟩).filter
      (fun k => k ≠ "id") = _
    rw [show (rowKeys ⟨.num 0, d.rows.enum.foldl (fun acc q =>
        setCell acc ("Row_" ++ toString q.1) (getCell q.2 c0.name))
        [("Attribute", .str c0.name)]⟩) = (d.rows.enum.foldl (fun acc q =>
        setCell acc ("Row_" ++ toString q.1) (getCell q.2 c0.name))
        [("Attribute", .str c0.name)]).map Prod.fst from rfl]
    rw [transpose_row_cells]
    rw [List.filter_eq_self.mpr ?_]
    · simp only [List.map_cons, List.map_map]
      congr 1
      have h2 : (Prod.fst ∘ (fun q : ℕ × DataRow =>
          ("Row_" ++ toString q.1, getCell q.2 c0.name))) =
          ((fun i => "Row_" ++ toString i) ∘ Prod.fst) := rfl
      rw [h2, ← List.map_map, List.enum_map_fst]
    · intro a ha
      simp only [List.map_cons, List.map_map, List.mem_cons] at ha
      rcases ha with ha | ha
      · subst ha; decide
      · obtain ⟨q, _, hq⟩ := List.mem_map.mp ha
        subst hq
        simpa using rowKeyStr_ne_id q.1

/-- C5 counterexample input: a one-cell dataset with column A. -/
def dC5 : Dataset :=
  ⟨"D5", [⟨.num 0, [("A", .num 5)]⟩],
   [⟨"A", "A", .number, 0, 1, some 5, some 5, some 5, true, 0, none⟩], ⟨1, 1, 0, 0⟩⟩

/-- C5 counterexample: double-transposing the one-cell dataset with
column A does not reproduce the original schema - the resulting columns
are Attribute and Row_0, and no column named A exists. -/
theorem transposeDataset_counterexample :
    ("A" ∈ dC5.columns.map (fun c => c.name)) ∧
    (transposeDataset defaultEnv (transposeDataset defaultEnv dC5)).columns.map
        (fun c => c.name) = ["Attribute", "Row_0"] ∧
    ("A" ∉ (transposeDataset defaultEnv (transposeDataset defaultEnv dC5)).columns.map
        (fun c => c.name)) := by
  decide

/-- C5 amended: transpose(transpose(d)) retains every original cell
value, but under a positional schema rather than the original one: its
columns are Attribute and Row_0..Row_(k-1) for the k original columns;
its first row stores the original column names (so the original header
is recoverable positionally, e.g. by a subsequent promote-row-to-header);
and for every original row i and column j, row i+1 carries the original
cell value of row i, column j under the key Row_j.  The original
column names are not restored as the schema. -/
theorem transposeDataset_amended (env : JsIntrinsics) (d : Dataset)
    (hcols : d.columns ≠ []) :
    (transposeDataset env (transposeDataset env d)).rows.length = d.rows.length + 1 ∧
    (transposeDataset env (transposeDataset env d)).columns.map (fun c => c.name) =
      "Attribute" :: (List.range d.columns.length).map (fun j => "Row_" ++ toString j) ∧
    (∀ j, ∀ hj : j < d.columns.length,
       getCell ((transposeDataset env (transposeDataset env d)).rows.getD 0
           (⟨.undefV, []⟩ : DataRow)) ("Row_" ++ toString j) =
         .str (d.columns.get ⟨j, hj⟩).name) ∧
    (∀ i j, ∀ hi : i < d.rows.length, ∀ hj : j < d.columns.length,
       getCell ((transposeDataset env (transposeDataset env d)).rows.getD (i + 1)
           (⟨.undefV, []⟩ : DataRow)) ("Row_" ++ toString j) =
         getCell (d.rows.get ⟨i, hi⟩) ((d.columns.get ⟨j, hj⟩).name)) := by
  have hT1cols : (transposeDataset env d).columns.map (fun c => c.name) =
      "Attribute" :: (List.range d.rows.length).map (fun i => "Row_" ++ toString i) :=
    transpose_columns_names env d hcols
  have hT1rows_len : (transposeDataset env d).rows.length = d.columns.length := by
    rw [transposeDataset_rows]
    simp [List.enum_length]
  have hT1cne : (transposeDataset env d).columns ≠ [] := by
    intro h
    rw [h] at hT1cols
    simp at hT1cols
  have hT2rows : (transposeDataset env (transposeDataset env d)).rows =
      (("Attribute" :: (List.range d.rows.length).map
          (fun i => "Row_" ++ toString i)).enum).map
        (fun p => (⟨.num p.1, (transposeDataset env d).rows.enum.foldl (fun acc q =>
            setCell acc ("Row_" ++ toString q.1) (getCell q.2 p.2))
          [("Attribute", .str p.2)]⟩ : DataRow)) := by
    rw [transposeDataset_rows env (transposeDataset env d), hT1cols]
  have hT1len' : ∀ j, j < d.columns.length → j < (transposeDataset env d).rows.length := by
    intro j hj
    omega
  have hT1get : ∀ (j : ℕ) (hj : j < d.columns.length),
      (transposeDataset env d).rows.get ⟨j, hT1len' j hj⟩ =
        (⟨.num j, ("Attribute", .str ((d.columns.get ⟨j, hj⟩).name)) ::
          d.rows.enum.map (fun q =>
            ("Row_" ++ toString q.1, getCell q.2 ((d.columns.get ⟨j, hj⟩).name)))⟩ : DataRow) := by
    intro j hj
    have hjr : j < (transposeDataset env d).rows.length := hT1len' j hj
    have hq2 : (transposeDataset env d).rows.get? j =
        some (⟨.num j, ("Attribute", .str ((d.columns.get ⟨j, hj⟩).name)) ::
          d.rows.enum.map (fun q =>
            ("Row_" ++ toString q.1, getCell q.2 ((d.columns.get ⟨j, hj⟩).name)))⟩ : DataRow) := by
      rw [transposeDataset_rows]
      simp only [List.get?_eq_getElem?, List.getElem?_map, List.getElem?_enum]
      rw [List.getElem?_eq_getElem hj]
      simp only [Option.map_some']
      rw [transpose_row_cells]
      rfl
    have hq1 := List.get?_eq_get hjr
    rw [hq1] at hq2
    exact Option.some.inj hq2
  refine ⟨?_, ?_, ?_, ?_⟩
  · rw [hT2rows]
    simp [List.enum_length]
  · rw [transpose_columns_names env (transposeDataset env d) hT1cne, hT1rows_len]
  · intro j hj
    have h0 : (0 : ℕ) < ("Attribute" :: (List.range d.rows.length).map
        (fun i => "Row_" ++ toString i)).length := by
      simp
    rw [hT2rows, getD_enum_map _ _ 0 h0]
    rw [show (("Attribute" :: (List.range d.rows.length).map
        (fun i => "Row_" ++ toString i)).get ⟨0, h0⟩) = "Attribute" from rfl]
    show getCell (⟨.num 0, (transposeDataset env d).rows.enum.foldl (fun acc q =>
        setCell acc ("Row_" ++ toString q.1) (getCell q.2 "Attribute"))
      [("Attribute", .str "Attribute")]⟩ : DataRow) ("Row_" ++ toString j) = _
    rw [transpose_row_cells]
    rw [getCell_rowkey_list _ ((transposeDataset env d).rows)
      _ (fun q => getCell q.2 "Attribute") j (hT1len' j hj)]
    show getCell ((transposeDataset env d).rows.get ⟨j, hT1len' j hj⟩) "Attribute" = _
    rw [hT1get j hj]
    exact getCell_attribute_head _ _ _
  · intro i j hi hj
    have hi1 : i + 1 < ("Attribute" :: (List.range d.rows.length).map
        (fun m => "Row_" ++ toString m)).length := by
      simp
      omega
    rw [hT2rows, getD_enum_map _ _ (i + 1) hi1]
    have hkey : (("Attribute" :: (List.range d.rows.length).map
        (fun m => "Row_" ++ toString m)).get ⟨i + 1, hi1⟩) = "Row_" ++ toString i := by
      simp [List.get_eq_getElem, List.getElem_map, List.getElem_range, hi]
    rw [hkey]
    show getCell (⟨.num (i + 1), (transposeDataset env d).rows.enum.foldl (fun acc q =>
        setCell acc ("Row_" ++ toString q.1) (getCell q.2 ("Row_" ++ toString i)))
      [("Attribute", .str ("Row_" ++ toString i))]⟩ : DataRow) ("Row_" ++ toString j) = _
    rw [transpose_row_cells]
    rw [getCell_rowkey_list _ ((transposeDataset env d).rows)
      _ (fun q => getCell q.2 ("Row_" ++ toString i)) j
      (hT1len' j hj)]
    show getCell ((transposeDataset env d).rows.get ⟨j, hT1len' j hj⟩)
      ("Row_" ++ toString i) = _
    rw [hT1get j hj]
    rw [getCell_rowkey_list _ d.rows
      _ (fun q => getCell q.2 ((d.columns.get ⟨j, hj⟩).name)) i hi]

/-- Witness for C5 at the one-cell dataset. -/
theorem transposeDataset_amended_witness :
    (transposeDataset defaultEnv (transposeDataset defaultEnv dC5)).rows.length =
      dC5.rows.length + 1 ∧
    getCell ((transposeDataset defaultEnv (transposeDataset defaultEnv dC5)).rows.getD (0 + 1)
        (⟨.undefV, []⟩ : DataRow)) ("Row_" ++ toString 0) =
      getCell (dC5.rows.get ⟨0, by decide⟩) ((dC5.columns.get ⟨0, by decide⟩).name) :=
  ⟨(transposeDataset_amended defaultEnv dC5 (by decide)).1,
   (transposeDataset_amended defaultEnv dC5 (by decide)).2.2.2 0 0 (by decide) (by decide)⟩

end VDA
